import Mathlib

/-!
Shallow embedding of the core of the Trimui Smart Pro input daemon
(src/controller/controller.c, src/rumble/rumble.c) and proofs about the
claims of its specification.

Conventions of the embedding:
 - C unsigned 16-bit inputs (raw ADC samples, calibration fields, magnitudes,
   gain) are modelled as `Nat`; C `int`/`int32_t` values as `Int`, with
   wrap-around (`% 2^32`) written explicitly at the one place the C code can
   overflow (the repeat-count multiplication in `rumble_play_effect`).
 - The IEEE-double pipeline of `map_adc_to_axis` is modelled by exact rational
   arithmetic: both operands of the single division have magnitude at most
   65535 and the scale factors are 32767/32768, so the products fit a double
   exactly and every comparison and rounding decided in the proofs below is
   decided identically by the doubles and by the rationals.
 - The GPIO rumble line (gpio.c keeps the last written value and suppresses
   redundant writes) is modelled as a `Bool` threaded through the rumble
   functions; `gpio_set_rumble` leaves the line equal to its argument.
 - `clock_gettime` is nondeterministic, so `now` is an explicit parameter of
   `rumble_play_effect` and `rumble_tick`.
-/

/-- Constant `AXIS_MIN` of controller.c. -/
def AXIS_MIN : Int := -32768

/-- Constant `AXIS_MAX` of controller.c. -/
def AXIS_MAX : Int := 32767

/-- Constant `DEFAULT_DEADZONE` of config.h. -/
def DEFAULT_DEADZONE : Int := 1024

/-- Function `clamp_axis` of controller.c: clamp to the signed 16-bit range. -/
def clamp_axis (value : Int) : Int :=
  if value > AXIS_MAX then AXIS_MAX
  else if value < AXIS_MIN then AXIS_MIN
  else value

/-- Function `fast_round` of controller.c: `(int)(value + 0.5)` for
nonnegative values, `(int)(value - 0.5)` otherwise.  The C cast truncates
toward zero, which is `Int.floor` on the nonnegative branch and `Int.ceil`
on the negative one. -/
def fast_round (value : ℚ) : Int :=
  if 0 ≤ value then ⌊value + 1/2⌋ else ⌈value - 1/2⌉

/-- Function `map_adc_to_axis` of controller.c, lines 89-122, transliterated:
center on `zro`, pick the active half-range, normalize and clamp to
`[-1, 1]`, scale by `AXIS_MAX` (nonnegative) or `-AXIS_MIN` (negative),
round, optionally invert, zero below the (defaulted, capped) deadzone and
clamp to the 16-bit signed range. -/
def map_adc_to_axis (raw mn mx zro deadzone : Nat) (invert : Bool) : Int :=
  let centered : Int := (raw : Int) - (zro : Int)
  let range : Int := if 0 ≤ centered then (mx : Int) - (zro : Int) else (zro : Int) - (mn : Int)
  if range = 0 then 0
  else
    let normalized : ℚ := (centered : ℚ) / (range : ℚ)
    let normalized1 : ℚ := if normalized > 1 then 1 else normalized
    let normalized2 : ℚ := if normalized1 < -1 then -1 else normalized1
    let scaled : ℚ := normalized2 * (if 0 ≤ normalized2 then (AXIS_MAX : ℚ) else -(AXIS_MIN : ℚ))
    let value0 : Int := fast_round scaled
    let value1 : Int := if invert then -value0 else value0
    let dz0 : Int := (deadzone : Int)
    let dz1 : Int := if dz0 ≤ 0 then DEFAULT_DEADZONE else dz0
    let dz : Int := if dz1 > AXIS_MAX then AXIS_MAX else dz1
    let value : Int := if |value1| < dz then 0 else value1
    clamp_axis value

/-- Evaluation rule for `fast_round` on nonnegative arguments. -/
lemma fast_round_eval_nonneg (v : ℚ) (z : ℤ) (h0 : 0 ≤ v) (h1 : (z : ℚ) ≤ v + 1/2)
    (h2 : v + 1/2 < z + 1) : fast_round v = z := by
  rw [fast_round, if_pos h0, Int.floor_eq_iff]
  exact ⟨h1, h2⟩

/-- Evaluation rule for `fast_round` on negative arguments. -/
lemma fast_round_eval_neg (v : ℚ) (z : ℤ) (h0 : ¬ 0 ≤ v) (h1 : (z : ℚ) - 1 < v - 1/2)
    (h2 : v - 1/2 ≤ z) : fast_round v = z := by
  rw [fast_round, if_neg h0, Int.ceil_eq_iff]
  exact ⟨h1, h2⟩

/-- Rounding a nonnegative value is nonnegative. -/
lemma fast_round_nonneg (v : ℚ) (h : 0 ≤ v) : 0 ≤ fast_round v := by
  rw [fast_round, if_pos h]
  exact Int.floor_nonneg.mpr (by linarith)

/-- Rounding a nonpositive value is nonpositive. -/
lemma fast_round_nonpos (v : ℚ) (h : v ≤ 0) : fast_round v ≤ 0 := by
  rw [fast_round]
  split_ifs with h0
  · have hv : v = 0 := le_antisymm h h0
    subst hv
    have : ⌊(0 : ℚ) + 1/2⌋ = 0 := by
      rw [Int.floor_eq_iff]
      norm_num
    omega
  · exact Int.ceil_le.mpr (by push_cast; linarith)

/-- The clamp stage keeps every value inside the signed 16-bit range. -/
lemma clamp_axis_bounds (v : Int) : AXIS_MIN ≤ clamp_axis v ∧ clamp_axis v ≤ AXIS_MAX := by
  unfold clamp_axis AXIS_MIN AXIS_MAX
  split_ifs <;> omega

/-- The clamp stage preserves nonnegativity. -/
lemma clamp_axis_nonneg (v : Int) (h : 0 ≤ v) : 0 ≤ clamp_axis v := by
  unfold clamp_axis AXIS_MIN AXIS_MAX at *
  split_ifs <;> omega

/-- The clamp stage preserves nonpositivity. -/
lemma clamp_axis_nonpos (v : Int) (h : v ≤ 0) : clamp_axis v ≤ 0 := by
  unfold clamp_axis AXIS_MIN AXIS_MAX at *
  split_ifs <;> omega

/-- The deadzone stage followed by the clamp preserves nonnegativity. -/
lemma deadzone_clamp_nonneg (C : Prop) [Decidable C] (v : Int) (h : 0 ≤ v) :
    0 ≤ clamp_axis (if C then 0 else v) := by
  split_ifs with hc
  · exact clamp_axis_nonneg 0 le_rfl
  · exact clamp_axis_nonneg v h

/-- The deadzone stage followed by the clamp preserves nonpositivity. -/
lemma deadzone_clamp_nonpos (C : Prop) [Decidable C] (v : Int) (h : v ≤ 0) :
    clamp_axis (if C then 0 else v) ≤ 0 := by
  split_ifs with hc
  · exact clamp_axis_nonpos 0 le_rfl
  · exact clamp_axis_nonpos v h

/-- With `invert = false`, a sample at or above center on an axis whose
maximum is at or above center maps to a nonnegative value. -/
lemma map_adc_nonneg (raw mn mx zro dz : Nat) (h0 : zro ≤ raw) (h1 : zro ≤ mx) :
    0 ≤ map_adc_to_axis raw mn mx zro dz false := by
  have hc : (0 : Int) ≤ (raw : Int) - (zro : Int) := by omega
  have hn : (0 : ℚ) ≤ (((raw : Int) - (zro : Int) : Int) : ℚ) / (((mx : Int) - (zro : Int) : Int) : ℚ) := by
    apply div_nonneg
    · exact_mod_cast hc
    · have h2 : (0 : Int) ≤ (mx : Int) - (zro : Int) := by omega
      exact_mod_cast h2
  simp only [map_adc_to_axis, if_pos hc, Bool.false_eq_true, if_false, AXIS_MAX, AXIS_MIN,
    DEFAULT_DEADZONE]
  split
  · exact le_rfl
  · apply deadzone_clamp_nonneg
    apply fast_round_nonneg
    push_cast at hn ⊢
    split_ifs <;> norm_num <;> linarith

/-- With `invert = false`, a sample at or below center on an axis whose
minimum is at or below center maps to a nonpositive value. -/
lemma map_adc_nonpos (raw mn mx zro dz : Nat) (h0 : raw ≤ zro) (h1 : mn ≤ zro) :
    map_adc_to_axis raw mn mx zro dz false ≤ 0 := by
  simp only [map_adc_to_axis, Bool.false_eq_true, if_false, AXIS_MAX, AXIS_MIN, DEFAULT_DEADZONE]
  by_cases hc : (0 : Int) ≤ (raw : Int) - (zro : Int)
  · have hc0 : (raw : Int) - (zro : Int) = 0 := by omega
    rw [if_pos hc, hc0]
    norm_num
    split
    · exact le_rfl
    · exact deadzone_clamp_nonpos _ _ (fast_round_nonpos 0 le_rfl)
  · have hn : (((raw : Int) - (zro : Int) : Int) : ℚ) / (((zro : Int) - (mn : Int) : Int) : ℚ) ≤ 0 := by
      apply div_nonpos_of_nonpos_of_nonneg
      · have h2 : (raw : Int) - (zro : Int) ≤ 0 := by omega
        exact_mod_cast h2
      · have h2 : (0 : Int) ≤ (zro : Int) - (mn : Int) := by omega
        exact_mod_cast h2
    simp only [if_neg hc]
    split
    · exact le_rfl
    · apply deadzone_clamp_nonpos
      apply fast_round_nonpos
      push_cast at hn ⊢
      split_ifs <;> norm_num <;> linarith

/-- Linux input key code `BTN_SOUTH`. -/
def BTN_SOUTH : Nat := 0x130

/-- Linux input key code `BTN_EAST`. -/
def BTN_EAST : Nat := 0x131

/-- Linux input key code `BTN_NORTH`. -/
def BTN_NORTH : Nat := 0x133

/-- Linux input key code `BTN_WEST`. -/
def BTN_WEST : Nat := 0x134

/-- Linux input key code `BTN_TL`. -/
def BTN_TL : Nat := 0x136

/-- Linux input key code `BTN_TR`. -/
def BTN_TR : Nat := 0x137

/-- Linux input key code `BTN_TL2`. -/
def BTN_TL2 : Nat := 0x138

/-- Linux input key code `BTN_TR2`. -/
def BTN_TR2 : Nat := 0x139

/-- Linux input key code `BTN_SELECT`. -/
def BTN_SELECT : Nat := 0x13a

/-- Linux input key code `BTN_START`. -/
def BTN_START : Nat := 0x13b

/-- Linux input key code `BTN_MODE`. -/
def BTN_MODE : Nat := 0x13c

/-- Linux input axis code `ABS_HAT0X`. -/
def ABS_HAT0X : Nat := 0x10

/-- Linux input axis code `ABS_HAT0Y`. -/
def ABS_HAT0Y : Nat := 0x11

/-- Enum `joystick_side_t` of controller.c. -/
inductive joystick_side where
  | SIDE_LEFT
  | SIDE_RIGHT
deriving DecidableEq

/-- Table `left_map` of `update_buttons` (controller.c): bit mask to key code. -/
def left_map : List (Nat × Nat) :=
  [(0x01, BTN_TL), (0x02, BTN_TL2), (0x80, BTN_MODE)]

/-- Table `right_map` of `update_buttons` (controller.c): bit mask to key code. -/
def right_map : List (Nat × Nat) :=
  [(0x10, BTN_SOUTH), (0x20, BTN_EAST), (0x04, BTN_NORTH), (0x08, BTN_WEST),
   (0x01, BTN_TR), (0x02, BTN_TR2), (0x40, BTN_SELECT), (0x80, BTN_START)]

/-- Table selection of `update_buttons` (controller.c, lines 325-328). -/
def button_map (side : joystick_side) : List (Nat × Nat) :=
  match side with
  | .SIDE_LEFT => left_map
  | .SIDE_RIGHT => right_map

/-- Function `update_buttons` of controller.c, lines 301-348, as a pure
function: the emitted `EV_KEY` events (key code, pressed value) in table
order, the new stored previous bitmask, and the returned dirty flag.
Button bitmasks are the `u8` field `joybutton_t.b`. -/
def update_buttons (side : joystick_side) (last current : Nat) :
    List (Nat × Nat) × Nat × Bool :=
  if last = current then ([], last, false)
  else
    let events := (button_map side).filterMap (fun mc =>
      let prev_state : Bool := last &&& mc.1 != 0
      let curr_state : Bool := current &&& mc.1 != 0
      if prev_state == curr_state then none
      else some (mc.2, if curr_state then 1 else 0))
    (events, current, !events.isEmpty)

/-- Hat synthesis of `update_hat` (controller.c, lines 352-364): bit 0x08
means left (-1) and wins over bit 0x10 (right, +1); bit 0x04 means up (-1)
and wins over bit 0x20 (down, +1). -/
def synthesize_hat (b : Nat) : Int × Int :=
  (if b &&& 0x08 ≠ 0 then -1 else if b &&& 0x10 ≠ 0 then 1 else 0,
   if b &&& 0x04 ≠ 0 then -1 else if b &&& 0x20 ≠ 0 then 1 else 0)

/-- Function `update_hat` of controller.c, lines 350-379, as a pure function
of the stored hat state and the button bitmask: the emitted `EV_ABS` events
(axis code, value) and the new stored hat state.  An event is emitted for an
axis exactly when its synthesized value differs from the stored one. -/
def update_hat (hat_x hat_y : Int) (b : Nat) : List (Nat × Int) × Int × Int :=
  let new_x := (synthesize_hat b).1
  let new_y := (synthesize_hat b).2
  ((if new_x ≠ hat_x then [(ABS_HAT0X, new_x)] else []) ++
   (if new_y ≠ hat_y then [(ABS_HAT0Y, new_y)] else []),
   new_x, new_y)

/-- Errno value `EINVAL`. -/
def EINVAL : Int := 22

/-- Errno value `ENOSPC`. -/
def ENOSPC : Int := 28

/-- Force-feedback effect type `FF_RUMBLE` of linux/input.h. -/
def FF_RUMBLE : Nat := 0x50

/-- Constant `RUMBLE_MAX_EFFECTS` of rumble.h. -/
def RUMBLE_MAX_EFFECTS : Nat := 8

/-- The fields of `struct ff_effect` the rumble engine reads or writes:
`type`, `id` (a signed 16-bit slot id, `-1` meaning none), the two rumble
magnitudes and `replay.length` in milliseconds. -/
structure ff_effect where
  type : Nat
  id : Int
  strong_magnitude : Nat
  weak_magnitude : Nat
  replay_length : Nat
deriving DecidableEq

/-- A `struct timespec` (tv_sec seconds, tv_nsec nanoseconds). -/
structure timespec where
  tv_sec : Int
  tv_nsec : Int
deriving DecidableEq

/-- Function `timespec_add_ms` of rumble.c. -/
def timespec_add_ms (ts : timespec) (ms : Nat) : timespec :=
  let s : Int := ts.tv_sec + ((ms / 1000 : Nat) : Int)
  let n : Int := ts.tv_nsec + ((ms % 1000 : Nat) : Int) * 1000000
  if n ≥ 1000000000 then { tv_sec := s + 1, tv_nsec := n - 1000000000 }
  else { tv_sec := s, tv_nsec := n }

/-- Function `timespec_after` of rumble.c: whether `a` is at or after `b`. -/
def timespec_after (a b : timespec) : Bool :=
  if a.tv_sec > b.tv_sec then true
  else if a.tv_sec < b.tv_sec then false
  else if a.tv_nsec ≥ b.tv_nsec then true else false

/-- Type `rumble_slot_t` of rumble.h. -/
structure rumble_slot where
  effect : ff_effect
  in_use : Bool
deriving DecidableEq

/-- Type `rumble_state_t` of rumble.h. -/
structure rumble_state where
  slots : Fin RUMBLE_MAX_EFFECTS → rumble_slot
  rumble_active : Bool
  stop_time : timespec
  gain : Nat

/-- Slot update helper: `state->slots[i] = slot`. -/
def set_slot (s : rumble_state) (i : Fin RUMBLE_MAX_EFFECTS) (slot : rumble_slot) :
    rumble_state :=
  { s with slots := Function.update s.slots i slot }

/-- Function `rumble_state_init` of rumble.c: `memset` to zero, then maximum
gain. -/
def rumble_state_init : rumble_state :=
  { slots := fun _ =>
      { effect := { type := 0, id := 0, strong_magnitude := 0, weak_magnitude := 0,
                    replay_length := 0 },
        in_use := false },
    rumble_active := false,
    stop_time := { tv_sec := 0, tv_nsec := 0 },
    gain := 0xFFFF }

/-- Loop body of `allocate_slot` (rumble.c, lines 43-52), scanning slots from
index `i` with `fuel` iterations left (the C loop runs `RUMBLE_MAX_EFFECTS`
iterations); returns the claimed slot index, or `none` for the C `-1`. -/
def allocate_scan (s : rumble_state) (i : Nat) (fuel : Nat) :
    Option (Fin RUMBLE_MAX_EFFECTS) × rumble_state :=
  match fuel with
  | 0 => (none, s)
  | fuel' + 1 =>
    if h : i < RUMBLE_MAX_EFFECTS then
      if (s.slots ⟨i, h⟩).in_use then allocate_scan s (i + 1) fuel'
      else (some ⟨i, h⟩, set_slot s ⟨i, h⟩ { s.slots ⟨i, h⟩ with in_use := true })
    else (none, s)

/-- Function `allocate_slot` of rumble.c: claim the first free slot. -/
def allocate_slot (s : rumble_state) : Option (Fin RUMBLE_MAX_EFFECTS) × rumble_state :=
  allocate_scan s 0 RUMBLE_MAX_EFFECTS

/-- Shared tail of `rumble_upload_effect` (rumble.c, lines 80-83): store the
effect in slot `i`, overwrite its stored id with the slot index and write the
slot index back into the caller's effect. -/
def upload_finish (s : rumble_state) (i : Fin RUMBLE_MAX_EFFECTS) (effect : ff_effect) :
    Int × rumble_state × ff_effect :=
  (0, set_slot s i { s.slots i with effect := { effect with id := ((i : Nat) : Int) } },
   { effect with id := ((i : Nat) : Int) })

/-- Function `rumble_upload_effect` of rumble.c, lines 54-84 (the null-pointer
guard has no counterpart in the embedding).  Returns the C return value, the
new engine state and the caller's effect with the slot id written back. -/
def rumble_upload_effect (s : rumble_state) (effect : ff_effect) :
    Int × rumble_state × ff_effect :=
  if effect.type ≠ FF_RUMBLE then (-EINVAL, s, effect)
  else if h0 : effect.id < 0 then
    match allocate_slot s with
    | (none, s1) => (-ENOSPC, s1, effect)
    | (some i, s1) => upload_finish s1 i effect
  else if h1 : ((RUMBLE_MAX_EFFECTS : Nat) : Int) ≤ effect.id then (-EINVAL, s, effect)
  else
    let i : Fin RUMBLE_MAX_EFFECTS := ⟨effect.id.toNat, by omega⟩
    let s1 := if (s.slots i).in_use then s
              else set_slot s i { s.slots i with in_use := true }
    upload_finish s1 i effect

/-- Function `rumble_erase_effect` of rumble.c, lines 86-102.  Returns the C
return value, the new engine state and the new GPIO rumble line. -/
def rumble_erase_effect (s : rumble_state) (gpio : Bool) (effect_id : Int) :
    Int × rumble_state × Bool :=
  if h : effect_id < 0 ∨ ((RUMBLE_MAX_EFFECTS : Nat) : Int) ≤ effect_id then (-EINVAL, s, gpio)
  else
    let i : Fin RUMBLE_MAX_EFFECTS := ⟨effect_id.toNat, by omega⟩
    let s1 := set_slot s i { s.slots i with in_use := false }
    if s1.rumble_active = true ∧ (s1.slots i).effect.id = effect_id then
      (0, { s1 with rumble_active := false }, false)
    else (0, s1, gpio)

/-- Function `rumble_stop` of rumble.c: turn playback and the motor off,
doing nothing when playback is already idle. -/
def rumble_stop (s : rumble_state) (gpio : Bool) : rumble_state × Bool :=
  if s.rumble_active = false then (s, gpio)
  else ({ s with rumble_active := false }, false)

/-- Function `rumble_play_effect` of rumble.c, lines 113-144, with the
monotonic clock passed in as `now`.  Returns the new engine state and the
new GPIO rumble line. -/
def rumble_play_effect (s : rumble_state) (gpio : Bool) (effect_id : Int) (rep : Int)
    (now : timespec) : rumble_state × Bool :=
  if h : effect_id < 0 ∨ ((RUMBLE_MAX_EFFECTS : Nat) : Int) ≤ effect_id then (s, gpio)
  else
    let i : Fin RUMBLE_MAX_EFFECTS := ⟨effect_id.toNat, by omega⟩
    if (s.slots i).in_use = false then (s, gpio)
    else
      let effect := (s.slots i).effect
      let mag0 : Nat := if effect.weak_magnitude > effect.strong_magnitude
                        then effect.weak_magnitude else effect.strong_magnitude
      let mag : Nat := mag0 * s.gain / 0xFFFF
      if mag = 0 ∨ rep = 0 then rumble_stop s gpio
      else
        let reps : Nat := if rep > 0 then rep.toNat else 1
        let duration_ms : Nat := effect.replay_length * reps % 2 ^ 32
        ({ s with stop_time := timespec_add_ms now duration_ms, rumble_active := true }, true)

/-- Function `rumble_apply_gain` of rumble.c, lines 146-156. -/
def rumble_apply_gain (s : rumble_state) (gpio : Bool) (gain : Nat) :
    rumble_state × Bool :=
  let s1 := { s with gain := gain }
  if s1.rumble_active = false then (s1, gpio)
  else if gain = 0 then rumble_stop s1 gpio
  else (s1, gpio)

/-- Function `rumble_tick` of rumble.c, lines 158-168, with the monotonic
clock passed in as `now`. -/
def rumble_tick (s : rumble_state) (gpio : Bool) (now : timespec) :
    rumble_state × Bool :=
  if s.rumble_active = false then (s, gpio)
  else if timespec_after now s.stop_time then rumble_stop s gpio
  else (s, gpio)

/-- One request dispatched to the rumble engine by the controller runtime
(process_uinput_events in controller.c), or one timer tick. -/
inductive rumble_op where
  | upload (effect : ff_effect)
  | erase (effect_id : Int)
  | play (effect_id : Int) (rep : Int) (now : timespec)
  | apply_gain (gain : Nat)
  | tick (now : timespec)

/-- Apply one rumble request to the engine state and the GPIO line. -/
def run_op (sg : rumble_state × Bool) (op : rumble_op) : rumble_state × Bool :=
  match op with
  | .upload e => ((rumble_upload_effect sg.1 e).2.1, sg.2)
  | .erase i => (rumble_erase_effect sg.1 sg.2 i).2
  | .play i rep now => rumble_play_effect sg.1 sg.2 i rep now
  | .apply_gain g => rumble_apply_gain sg.1 sg.2 g
  | .tick now => rumble_tick sg.1 sg.2 now

/-- Run a sequence of rumble requests from the freshly initialized engine
(rumble_state_init) with the motor off, as run_controller sets it up. -/
def run_ops (ops : List rumble_op) : rumble_state × Bool :=
  ops.foldl run_op (rumble_state_init, false)

/-- Evaluation of the mapper at the spec scenario center sample. -/
lemma map_eval_center : map_adc_to_axis 2048 0 4095 2048 1024 false = 0 := by
  have h : fast_round (0 : ℚ) = 0 :=
    fast_round_eval_nonneg 0 0 (by norm_num) (by norm_num) (by norm_num)
  norm_num [map_adc_to_axis, clamp_axis, DEFAULT_DEADZONE, AXIS_MAX, AXIS_MIN, h]

/-- Evaluation of the mapper at the spec scenario full deflection. -/
lemma map_eval_full : map_adc_to_axis 4095 0 4095 2048 1024 false = 32767 := by
  have h : fast_round ((32767 : ℚ)) = 32767 :=
    fast_round_eval_nonneg _ 32767 (by norm_num) (by norm_num) (by norm_num)
  norm_num [map_adc_to_axis, clamp_axis, DEFAULT_DEADZONE, AXIS_MAX, AXIS_MIN, h]

/-- Evaluation of the mapper at the spec scenario offset 1000: the scaled
value is `round(1000/2047 * 32767) = 16007`, far above the deadzone of 1024,
so it is not zeroed. -/
lemma map_eval_3048 : map_adc_to_axis 3048 0 4095 2048 1024 false = 16007 := by
  have h : fast_round ((32767000 / 2047 : ℚ)) = 16007 :=
    fast_round_eval_nonneg _ 16007 (by norm_num) (by norm_num) (by norm_num)
  norm_num [map_adc_to_axis, clamp_axis, DEFAULT_DEADZONE, AXIS_MAX, AXIS_MIN, h]

/-- Evaluation of the mapper at full positive deflection of a symmetric
calibration: the positive side scales by `AXIS_MAX = 32767`. -/
lemma map_eval_pos_extreme : map_adc_to_axis 4096 0 4096 2048 1 false = 32767 := by
  have h : fast_round ((32767 : ℚ)) = 32767 :=
    fast_round_eval_nonneg _ 32767 (by norm_num) (by norm_num) (by norm_num)
  norm_num [map_adc_to_axis, clamp_axis, DEFAULT_DEADZONE, AXIS_MAX, AXIS_MIN, h]

/-- Evaluation of the mapper at full negative deflection of a symmetric
calibration: the negative side scales by `-AXIS_MIN = 32768`. -/
lemma map_eval_neg_extreme : map_adc_to_axis 0 0 4096 2048 1 false = -32768 := by
  have h : fast_round ((-32768 : ℚ)) = -32768 :=
    fast_round_eval_neg _ (-32768) (by norm_num) (by norm_num) (by norm_num)
  norm_num [map_adc_to_axis, clamp_axis, DEFAULT_DEADZONE, AXIS_MAX, AXIS_MIN, h]

/-- C1 counterexample: for the claimed calibration, raw input 3048
(center + 1000, an offset below the deadzone field 1024) does not map to 0:
the code compares the deadzone against the scaled output, which is 16007. -/
theorem axis_map_raw3048_not_zero : ¬ map_adc_to_axis 3048 0 4095 2048 1024 false = 0 := by
  rw [map_eval_3048]
  decide

/-- C1 (amended): for calibration {0,4095,2048,deadzone 1024} and invert
false the mapper sends raw 2048 to 0 and raw 4095 to 32767, but raw 3048 to
16007: the deadzone test compares the scaled output magnitude (16007),
not the raw offset (1000), against 1024. -/
theorem axis_map_calibration_scenario :
    map_adc_to_axis 2048 0 4095 2048 1024 false = 0
    ∧ map_adc_to_axis 4095 0 4095 2048 1024 false = 32767
    ∧ map_adc_to_axis 3048 0 4095 2048 1024 false = 16007 :=
  ⟨map_eval_center, map_eval_full, map_eval_3048⟩

/-- C6: erasing an out-of-bounds effect id (negative or at least
`RUMBLE_MAX_EFFECTS`) fails with `-EINVAL` and leaves the engine state and
the motor line unchanged. -/
theorem erase_out_of_bounds_rejected (s : rumble_state) (gpio : Bool) (effect_id : Int)
    (h : effect_id < 0 ∨ ((RUMBLE_MAX_EFFECTS : Nat) : Int) ≤ effect_id) :
    rumble_erase_effect s gpio effect_id = (-EINVAL, s, gpio) := by
  rw [rumble_erase_effect, dif_pos h]

/-- C6 witness: erasing id 8 from the freshly initialized engine. -/
theorem erase_out_of_bounds_rejected_witness :
    rumble_erase_effect rumble_state_init false 8 = (-EINVAL, rumble_state_init, false) :=
  erase_out_of_bounds_rejected rumble_state_init false 8 (by decide)

/-- Unfolding helper: the new stored bitmask of `update_buttons` is always
the current bitmask. -/
lemma update_buttons_last (side : joystick_side) (prev curr : Nat) :
    (update_buttons side prev curr).2.1 = curr := by
  rw [update_buttons]
  split_ifs with h
  · exact h
  · rfl

/-- Unfolding helper: an unchanged bitmask produces no events and a clear
dirty flag. -/
lemma update_buttons_self (side : joystick_side) (b : Nat) :
    update_buttons side b b = ([], b, false) := by
  rw [update_buttons, if_pos rfl]

/-- C8: the button edge tracker emits nothing when previous equals current,
always stores `current` as the new previous state, and an immediately
repeated diff with the same current bitmask emits nothing more. -/
theorem button_diff_idempotent (side : joystick_side) (b prev curr : Nat) :
    update_buttons side b b = ([], b, false)
    ∧ (update_buttons side prev curr).2.1 = curr
    ∧ (update_buttons side (update_buttons side prev curr).2.1 curr).1 = [] := by
  refine ⟨update_buttons_self side b, update_buttons_last side prev curr, ?_⟩
  rw [update_buttons_last side prev curr, update_buttons_self side curr]

/-- C9: hat synthesis always yields values in {-1, 0, 1}; bit 0x08 (left)
forces hat_x to -1 even when bit 0x10 (right) is also set, bit 0x10 alone
gives +1, neither gives 0; bits 0x04 (up) and 0x20 (down) behave the same
way for hat_y; and `update_hat` emits an event for an axis exactly when its
synthesized value differs from the stored one. -/
theorem hat_synthesis_contract (b : Nat) (hx hy : Int) :
    ((synthesize_hat b).1 = -1 ∨ (synthesize_hat b).1 = 0 ∨ (synthesize_hat b).1 = 1)
    ∧ ((synthesize_hat b).2 = -1 ∨ (synthesize_hat b).2 = 0 ∨ (synthesize_hat b).2 = 1)
    ∧ (b &&& 0x08 ≠ 0 → (synthesize_hat b).1 = -1)
    ∧ (b &&& 0x08 = 0 → b &&& 0x10 ≠ 0 → (synthesize_hat b).1 = 1)
    ∧ (b &&& 0x08 = 0 → b &&& 0x10 = 0 → (synthesize_hat b).1 = 0)
    ∧ (b &&& 0x04 ≠ 0 → (synthesize_hat b).2 = -1)
    ∧ (b &&& 0x04 = 0 → b &&& 0x20 ≠ 0 → (synthesize_hat b).2 = 1)
    ∧ (b &&& 0x04 = 0 → b &&& 0x20 = 0 → (synthesize_hat b).2 = 0)
    ∧ ((ABS_HAT0X, (synthesize_hat b).1) ∈ (update_hat hx hy b).1 ↔ (synthesize_hat b).1 ≠ hx)
    ∧ ((ABS_HAT0Y, (synthesize_hat b).2) ∈ (update_hat hx hy b).1 ↔ (synthesize_hat b).2 ≠ hy)
    ∧ (update_hat hx hy b).2.1 = (synthesize_hat b).1
    ∧ (update_hat hx hy b).2.2 = (synthesize_hat b).2 := by
  refine ⟨?_, ?_, ?_, ?_, ?_, ?_, ?_, ?_, ?_, ?_, rfl, rfl⟩
  · rw [synthesize_hat]
    split_ifs <;> simp
  · rw [synthesize_hat]
    split_ifs <;> simp
  · intro h
    rw [synthesize_hat]
    simp [h]
  · intro h h2
    rw [synthesize_hat]
    simp [h, h2]
  · intro h h2
    rw [synthesize_hat]
    simp [h, h2]
  · intro h
    rw [synthesize_hat]
    simp [h]
  · intro h h2
    rw [synthesize_hat]
    simp [h, h2]
  · intro h h2
    rw [synthesize_hat]
    simp [h, h2]
  · rw [update_hat]
    by_cases hX : (synthesize_hat b).1 ≠ hx <;>
      by_cases hY : (synthesize_hat b).2 ≠ hy <;>
        simp [hX, hY, ABS_HAT0X, ABS_HAT0Y]
  · rw [update_hat]
    by_cases hX : (synthesize_hat b).1 ≠ hx <;>
      by_cases hY : (synthesize_hat b).2 ≠ hy <;>
        simp [hX, hY, ABS_HAT0X, ABS_HAT0Y]

/-- C9 witness: with bits 0x08 and 0x10 both set, left wins and hat_x is -1;
with neither 0x04 nor 0x20 set, hat_y is 0. -/
theorem hat_synthesis_contract_witness :
    (synthesize_hat 0x18).1 = -1 ∧ (synthesize_hat 0x18).2 = 0 :=
  ⟨(hat_synthesis_contract 0x18 0 0).2.2.1 (by decide),
   (hat_synthesis_contract 0x18 0 0).2.2.2.2.2.2.2.1 (by decide) (by decide)⟩

/-- Example rumble effect payload (full strong magnitude, 100 ms) used in
the concrete scenarios below. -/
def eff_ex : ff_effect :=
  { type := FF_RUMBLE, id := -1, strong_magnitude := 0xFFFF, weak_magnitude := 0,
    replay_length := 100 }

/-- A concrete engine state with playback active: slot 0 is uploaded with
stored id 0, every other slot is free and still holds the zeroed effect of
`rumble_state_init` (stored id 0). -/
def st_active : rumble_state :=
  { slots := fun j =>
      { effect := { type := FF_RUMBLE, id := 0, strong_magnitude := 0xFFFF,
                    weak_magnitude := 0, replay_length := 100 },
        in_use := if (j : Nat) = 0 then true else false },
    rumble_active := true,
    stop_time := { tv_sec := 1, tv_nsec := 0 },
    gain := 0xFFFF }

/-- C2 counterexample: upload two effects (slots 0 and 1), play slot 0, then
erase slot 1 — a valid slot other than the one selected for playback.  The
claim says playback stays active and the motor keeps running, but the engine
goes idle and the motor turns off: the erase test compares the erased slot's
stored effect id with its index, which holds for every uploaded slot, not
only the playing one. -/
theorem erase_other_slot_stops_motor :
    (run_ops [.upload eff_ex, .upload eff_ex, .play 0 1 ⟨0, 0⟩]).1.rumble_active = true
    ∧ (run_ops [.upload eff_ex, .upload eff_ex, .play 0 1 ⟨0, 0⟩]).2 = true
    ∧ (run_ops [.upload eff_ex, .upload eff_ex, .play 0 1 ⟨0, 0⟩, .erase 1]).1.rumble_active
        = false
    ∧ (run_ops [.upload eff_ex, .upload eff_ex, .play 0 1 ⟨0, 0⟩, .erase 1]).2 = false := by
  decide

/-- C2 (amended): erasing an in-bounds slot id returns 0, marks that slot
free and touches no other slot, no gain and no deadline; playback goes idle
and the motor turns off exactly when playback was active and the erased
slot's stored effect id equals its own index (true of every slot written by
upload, not only of the slot being played); otherwise playback and motor are
unchanged. -/
theorem erase_in_bounds_behavior (s : rumble_state) (gpio : Bool) (i : Fin RUMBLE_MAX_EFFECTS) :
    (rumble_erase_effect s gpio ((i : Nat) : Int)).1 = 0
    ∧ ((rumble_erase_effect s gpio ((i : Nat) : Int)).2.1.slots i).in_use = false
    ∧ (∀ j, j ≠ i → (rumble_erase_effect s gpio ((i : Nat) : Int)).2.1.slots j = s.slots j)
    ∧ (rumble_erase_effect s gpio ((i : Nat) : Int)).2.1.gain = s.gain
    ∧ (rumble_erase_effect s gpio ((i : Nat) : Int)).2.1.stop_time = s.stop_time
    ∧ (s.rumble_active = true → (s.slots i).effect.id = ((i : Nat) : Int) →
        (rumble_erase_effect s gpio ((i : Nat) : Int)).2.1.rumble_active = false
        ∧ (rumble_erase_effect s gpio ((i : Nat) : Int)).2.2 = false)
    ∧ (¬(s.rumble_active = true ∧ (s.slots i).effect.id = ((i : Nat) : Int)) →
        (rumble_erase_effect s gpio ((i : Nat) : Int)).2.1.rumble_active = s.rumble_active
        ∧ (rumble_erase_effect s gpio ((i : Nat) : Int)).2.2 = gpio) := by
  have hb : ¬(((i : Nat) : Int) < 0 ∨ ((RUMBLE_MAX_EFFECTS : Nat) : Int) ≤ ((i : Nat) : Int)) := by
    have h8 : (i : Nat) < 8 := i.isLt
    simp only [RUMBLE_MAX_EFFECTS]
    omega
  rw [rumble_erase_effect, dif_neg hb]
  simp only [Int.toNat_natCast, Fin.eta, set_slot]
  by_cases hcond : s.rumble_active = true ∧ (s.slots i).effect.id = ((i : Nat) : Int)
  · rw [if_pos (by simpa [Function.update_same] using hcond)]
    refine ⟨rfl, by simp [Function.update_same], ?_, rfl, rfl, ?_, ?_⟩
    · intro j hj
      exact Function.update_noteq hj _ _
    · intro _ _
      exact ⟨rfl, rfl⟩
    · intro hn
      exact absurd hcond hn
  · rw [if_neg (by simpa [Function.update_same] using hcond)]
    refine ⟨rfl, by simp [Function.update_same], ?_, rfl, rfl, ?_, ?_⟩
    · intro j hj
      exact Function.update_noteq hj _ _
    · intro ha hid
      exact absurd ⟨ha, hid⟩ hcond
    · intro _
      exact ⟨rfl, rfl⟩

/-- C2 witness: on `st_active` (playing, slot 0 uploaded with stored id 0),
erasing slot 0 stops playback and the motor, while erasing slot 1 (stored id
0, different from its index 1) leaves both untouched. -/
theorem erase_in_bounds_behavior_witness :
    ((rumble_erase_effect st_active true 0).2.1.rumble_active = false
     ∧ (rumble_erase_effect st_active true 0).2.2 = false)
    ∧ ((rumble_erase_effect st_active true 1).2.1.rumble_active = true
       ∧ (rumble_erase_effect st_active true 1).2.2 = true) :=
  ⟨(erase_in_bounds_behavior st_active true ⟨0, by decide⟩).2.2.2.2.2.1 rfl (by decide),
   (erase_in_bounds_behavior st_active true ⟨1, by decide⟩).2.2.2.2.2.2 (by decide)⟩

/-- C3 counterexample: with slot 0 uploaded and playing, play requests with
repeat 0 on free slot 5 and on out-of-bounds id 9 are strict no-ops: playback
stays active, contradicting the claim that play(id, 0) always stops playback
even for free or out-of-bounds ids. -/
theorem play_zero_stale_id_noop :
    (run_ops [.upload eff_ex, .play 0 1 ⟨0, 0⟩]).1.rumble_active = true
    ∧ (run_ops [.upload eff_ex, .play 0 1 ⟨0, 0⟩, .play 5 0 ⟨0, 0⟩]).1.rumble_active = true
    ∧ (run_ops [.upload eff_ex, .play 0 1 ⟨0, 0⟩, .play 9 0 ⟨0, 0⟩]).1.rumble_active = true := by
  decide

/-- C3 (amended): a play request with an out-of-bounds id, or whose in-bounds
slot is free, is a strict no-op on the engine state and motor even when the
requested repeat count is 0; play with repeat 0 on an in-bounds uploaded slot
runs `rumble_stop`, which leaves playback idle, turns the motor off when
playback was active, and changes nothing when it was already idle. -/
theorem play_repeat_zero_behavior (s : rumble_state) (gpio : Bool) (effect_id rep : Int)
    (now : timespec) :
    (effect_id < 0 ∨ ((RUMBLE_MAX_EFFECTS : Nat) : Int) ≤ effect_id →
       rumble_play_effect s gpio effect_id rep now = (s, gpio))
    ∧ (∀ i : Fin RUMBLE_MAX_EFFECTS, ((i : Nat) : Int) = effect_id →
       (s.slots i).in_use = false →
       rumble_play_effect s gpio effect_id rep now = (s, gpio))
    ∧ (∀ i : Fin RUMBLE_MAX_EFFECTS, ((i : Nat) : Int) = effect_id →
       (s.slots i).in_use = true →
       rumble_play_effect s gpio effect_id 0 now = rumble_stop s gpio)
    ∧ (rumble_stop s gpio).1.rumble_active = false
    ∧ (s.rumble_active = true → rumble_stop s gpio = ({ s with rumble_active := false }, false))
    ∧ (s.rumble_active = false → rumble_stop s gpio = (s, gpio)) := by
  refine ⟨?_, ?_, ?_, ?_, ?_, ?_⟩
  · intro h
    rw [rumble_play_effect, dif_pos h]
  · intro i hi hfree
    subst hi
    have hb : ¬(((i : Nat) : Int) < 0 ∨ ((RUMBLE_MAX_EFFECTS : Nat) : Int) ≤ ((i : Nat) : Int)) := by
      have h8 : (i : Nat) < 8 := i.isLt
      simp only [RUMBLE_MAX_EFFECTS]
      omega
    rw [rumble_play_effect, dif_neg hb]
    simp only [Int.toNat_natCast, Fin.eta]
    rw [if_pos hfree]
  · intro i hi huse
    subst hi
    have hb : ¬(((i : Nat) : Int) < 0 ∨ ((RUMBLE_MAX_EFFECTS : Nat) : Int) ≤ ((i : Nat) : Int)) := by
      have h8 : (i : Nat) < 8 := i.isLt
      simp only [RUMBLE_MAX_EFFECTS]
      omega
    rw [rumble_play_effect, dif_neg hb]
    simp only [Int.toNat_natCast, Fin.eta]
    rw [if_neg (by simp [huse]), if_pos (Or.inr trivial)]
  · rw [rumble_stop]
    split_ifs with h
    · exact h
    · rfl
  · intro h
    rw [rumble_stop, if_neg (by simp [h])]
  · intro h
    rw [rumble_stop, if_pos h]

/-- C3 witness: on `st_active`, play(0, repeat 0) stops playback and the
motor, and play(9, repeat 5) is a no-op. -/
theorem play_repeat_zero_behavior_witness :
    rumble_play_effect st_active true 0 0 ⟨2, 0⟩ = rumble_stop st_active true
    ∧ (rumble_stop st_active true).1.rumble_active = false
    ∧ rumble_stop st_active true = ({ st_active with rumble_active := false }, false)
    ∧ rumble_play_effect st_active true 9 5 ⟨2, 0⟩ = (st_active, true) :=
  ⟨(play_repeat_zero_behavior st_active true 0 0 ⟨2, 0⟩).2.2.1 ⟨0, by decide⟩ rfl (by decide),
   (play_repeat_zero_behavior st_active true 0 0 ⟨2, 0⟩).2.2.2.1,
   (play_repeat_zero_behavior st_active true 0 0 ⟨2, 0⟩).2.2.2.2.1 rfl,
   (play_repeat_zero_behavior st_active true 9 5 ⟨2, 0⟩).1 (by decide)⟩

/-- Characterization of `timespec_after a b`: true exactly when `a` is at or
after `b` in lexicographic (seconds, nanoseconds) order. -/
lemma timespec_after_true_iff (a b : timespec) :
    timespec_after a b = true
      ↔ (b.tv_sec < a.tv_sec ∨ (b.tv_sec = a.tv_sec ∧ b.tv_nsec ≤ a.tv_nsec)) := by
  rw [timespec_after]
  split_ifs with h1 h2 h3 <;> simp <;> omega

/-- C7: while playback is active, apply_gain(0) stops playback, turns the
motor off and stores gain 0; a tick at or after the stored deadline moves
playback to idle and turns the motor off; a tick strictly before leaves the
engine state and the motor untouched. -/
theorem gain_zero_and_tick_deadline (s : rumble_state) (gpio : Bool) (now : timespec)
    (hact : s.rumble_active = true) :
    ((rumble_apply_gain s gpio 0).1.rumble_active = false
     ∧ (rumble_apply_gain s gpio 0).2 = false
     ∧ (rumble_apply_gain s gpio 0).1.gain = 0)
    ∧ ((s.stop_time.tv_sec < now.tv_sec
        ∨ (s.stop_time.tv_sec = now.tv_sec ∧ s.stop_time.tv_nsec ≤ now.tv_nsec)) →
       rumble_tick s gpio now = ({ s with rumble_active := false }, false))
    ∧ ((now.tv_sec < s.stop_time.tv_sec
        ∨ (now.tv_sec = s.stop_time.tv_sec ∧ now.tv_nsec < s.stop_time.tv_nsec)) →
       rumble_tick s gpio now = (s, gpio)) := by
  have hs1 : ¬({ s with gain := 0 } : rumble_state).rumble_active = false := by simp [hact]
  have hs : ¬s.rumble_active = false := by simp [hact]
  refine ⟨?_, ?_, ?_⟩
  · rw [rumble_apply_gain]
    rw [if_neg hs1, if_pos rfl, rumble_stop, if_neg hs1]
    exact ⟨rfl, rfl, rfl⟩
  · intro h
    have hA : timespec_after now s.stop_time = true :=
      (timespec_after_true_iff now s.stop_time).mpr h
    rw [rumble_tick, if_neg hs, if_pos hA, rumble_stop, if_neg hs]
  · intro h
    have hA : ¬timespec_after now s.stop_time = true := by
      rw [timespec_after_true_iff]
      omega
    rw [rumble_tick, if_neg hs, if_neg hA]

/-- C7 witness: on `st_active` (deadline 1 s), gain 0 stops the motor, a
tick exactly at the deadline stops it, and a tick strictly before leaves it
running. -/
theorem gain_zero_and_tick_deadline_witness :
    ((rumble_apply_gain st_active true 0).1.rumble_active = false
     ∧ (rumble_apply_gain st_active true 0).2 = false
     ∧ (rumble_apply_gain st_active true 0).1.gain = 0)
    ∧ rumble_tick st_active true ⟨1, 0⟩ = ({ st_active with rumble_active := false }, false)
    ∧ rumble_tick st_active true ⟨0, 5⟩ = (st_active, true) :=
  ⟨(gain_zero_and_tick_deadline st_active true ⟨1, 0⟩ rfl).1,
   (gain_zero_and_tick_deadline st_active true ⟨1, 0⟩ rfl).2.1 (by decide),
   (gain_zero_and_tick_deadline st_active true ⟨0, 5⟩ rfl).2.2 (by decide)⟩

/-- Specification of the allocation scan: starting at index `i` with
`fuel` iterations left (`i + fuel` covering the whole pool), it either
reports the pool full and leaves the state untouched, or claims the first
free slot at or after `i`. -/
lemma allocate_scan_spec (s : rumble_state) (fuel : Nat) :
    ∀ i : Nat, i + fuel = RUMBLE_MAX_EFFECTS →
    (allocate_scan s i fuel = (none, s)
       ∧ ∀ j : Fin RUMBLE_MAX_EFFECTS, i ≤ (j : Nat) → (s.slots j).in_use = true)
    ∨ (∃ k : Fin RUMBLE_MAX_EFFECTS, i ≤ (k : Nat) ∧ (s.slots k).in_use = false
        ∧ (∀ j : Fin RUMBLE_MAX_EFFECTS, i ≤ (j : Nat) → (j : Nat) < (k : Nat) →
            (s.slots j).in_use = true)
        ∧ allocate_scan s i fuel
            = (some k, set_slot s k { s.slots k with in_use := true })) := by
  induction fuel with
  | zero =>
    intro i hi
    left
    refine ⟨rfl, fun j hj => ?_⟩
    have hl := j.isLt
    omega
  | succ fuel ih =>
    intro i hi
    have hlt : i < RUMBLE_MAX_EFFECTS := by omega
    rw [allocate_scan, dif_pos hlt]
    by_cases hin : (s.slots ⟨i, hlt⟩).in_use = true
    · rw [if_pos hin]
      rcases ih (i + 1) (by omega) with ⟨heq, hall⟩ | ⟨k, hk, hfree, hmin, heq⟩
      · left
        refine ⟨heq, fun j hj => ?_⟩
        by_cases hji : (j : Nat) = i
        · have hj' : j = ⟨i, hlt⟩ := Fin.ext hji
          rw [hj']
          exact hin
        · exact hall j (by omega)
      · right
        refine ⟨k, by omega, hfree, fun j hj hjk => ?_, heq⟩
        by_cases hji : (j : Nat) = i
        · have hj' : j = ⟨i, hlt⟩ := Fin.ext hji
          rw [hj']
          exact hin
        · exact hmin j (by omega) hjk
    · have hin' : (s.slots ⟨i, hlt⟩).in_use = false := by
        simpa using hin
      rw [if_neg hin]
      right
      refine ⟨⟨i, hlt⟩, le_rfl, hin', fun j hj hjk => ?_, rfl⟩
      change (j : Nat) < i at hjk
      exact absurd hj (by omega)

/-- C5: upload rejects a non-rumble effect and an out-of-bounds supplied id
with `-EINVAL` without touching the pool; a supplied in-bounds id overwrites
exactly that slot and marks it used; with no supplied id (negative), the
first free slot is claimed and written, or `-ENOSPC` is returned with the
pool untouched when all slots are used; in every success case the slot id is
written back into the effect (and stored in the slot) as its identifier. -/
theorem upload_contract (s : rumble_state) (e : ff_effect) :
    (e.type ≠ FF_RUMBLE → rumble_upload_effect s e = (-EINVAL, s, e))
    ∧ (e.type = FF_RUMBLE → ((RUMBLE_MAX_EFFECTS : Nat) : Int) ≤ e.id →
        rumble_upload_effect s e = (-EINVAL, s, e))
    ∧ (e.type = FF_RUMBLE → ∀ i : Fin RUMBLE_MAX_EFFECTS, ((i : Nat) : Int) = e.id →
        rumble_upload_effect s e =
          (0, set_slot s i { effect := { e with id := ((i : Nat) : Int) }, in_use := true },
           { e with id := ((i : Nat) : Int) }))
    ∧ (e.type = FF_RUMBLE → e.id < 0 →
        (∀ j : Fin RUMBLE_MAX_EFFECTS, (s.slots j).in_use = true) →
        rumble_upload_effect s e = (-ENOSPC, s, e))
    ∧ (e.type = FF_RUMBLE → e.id < 0 → ∀ k : Fin RUMBLE_MAX_EFFECTS,
        (s.slots k).in_use = false →
        (∀ j : Fin RUMBLE_MAX_EFFECTS, (j : Nat) < (k : Nat) → (s.slots j).in_use = true) →
        rumble_upload_effect s e =
          (0, set_slot s k { effect := { e with id := ((k : Nat) : Int) }, in_use := true },
           { e with id := ((k : Nat) : Int) })) := by
  refine ⟨?_, ?_, ?_, ?_, ?_⟩
  · intro htype
    rw [rumble_upload_effect, if_pos htype]
  · intro htype hge
    have hneg : ¬e.id < 0 := by
      simp only [RUMBLE_MAX_EFFECTS] at hge
      omega
    rw [rumble_upload_effect, if_neg (by simp [htype]), dif_neg hneg, dif_pos hge]
  · intro htype i hi
    have hneg : ¬e.id < 0 := by
      have := i.isLt
      omega
    have hge : ¬((RUMBLE_MAX_EFFECTS : Nat) : Int) ≤ e.id := by
      have h8 : (i : Nat) < 8 := i.isLt
      simp only [RUMBLE_MAX_EFFECTS]
      omega
    rw [rumble_upload_effect, if_neg (by simp [htype]), dif_neg hneg, dif_neg hge]
    simp only [upload_finish, ← hi, Int.toNat_natCast, Fin.eta]
    by_cases hu : (s.slots i).in_use = true
    · rw [if_pos hu, hu]
    · rw [if_neg hu]
      simp [set_slot, Function.update_same, Function.update_idem]
  · intro htype hneg hall
    rw [rumble_upload_effect, if_neg (by simp [htype]), dif_pos hneg, allocate_slot]
    rcases allocate_scan_spec s RUMBLE_MAX_EFFECTS 0 (by omega) with ⟨heq, _⟩ | ⟨k, _, hfree, _, _⟩
    · rw [heq]
    · exact absurd (hall k) (by simp [hfree])
  · intro htype hneg k hfree hmin
    rw [rumble_upload_effect, if_neg (by simp [htype]), dif_pos hneg, allocate_slot]
    rcases allocate_scan_spec s RUMBLE_MAX_EFFECTS 0 (by omega) with ⟨_, hall⟩ | ⟨k', _, hfree', hmin', heq⟩
    · exact absurd (hall k (Nat.zero_le _)) (by simp [hfree])
    · have hkk : k' = k := by
        rcases Nat.lt_trichotomy (k' : Nat) (k : Nat) with hlt | heqv | hgt
        · exact absurd (hmin k' hlt) (by simp [hfree'])
        · exact Fin.ext heqv
        · exact absurd (hmin' k (Nat.zero_le _) hgt) (by simp [hfree])
      subst hkk
      rw [heq]
      simp [upload_finish, set_slot, Function.update_same, Function.update_idem]

/-- C5 witness: a non-rumble effect is rejected, and uploading `eff_ex`
(no supplied id) into the fresh engine claims slot 0 and writes id 0 back. -/
theorem upload_contract_witness :
    rumble_upload_effect rumble_state_init { eff_ex with type := 0x51 }
      = (-EINVAL, rumble_state_init, { eff_ex with type := 0x51 })
    ∧ rumble_upload_effect rumble_state_init eff_ex
        = (0, set_slot rumble_state_init ⟨0, by decide⟩
              { effect := { eff_ex with id := 0 }, in_use := true },
           { eff_ex with id := 0 }) :=
  ⟨(upload_contract rumble_state_init { eff_ex with type := 0x51 }).1 (by decide),
   (upload_contract rumble_state_init eff_ex).2.2.2.2 rfl (by decide) ⟨0, by decide⟩
     (by decide) (fun j hj => by simp at hj)⟩

/-- The claimed invariant: every slot in use stores an effect whose id field
is that slot's own index. -/
def slot_id_inv (s : rumble_state) : Prop :=
  ∀ i : Fin RUMBLE_MAX_EFFECTS, (s.slots i).in_use = true →
    (s.slots i).effect.id = ((i : Nat) : Int)

/-- The freshly initialized engine satisfies the invariant (no slot in use). -/
lemma slot_id_inv_init : slot_id_inv rumble_state_init := by
  intro i h
  simp [rumble_state_init] at h

/-- Upload either leaves the state unchanged or writes one slot, storing the
effect with its id overwritten by that slot's index. -/
lemma upload_slots_characterization (s : rumble_state) (e : ff_effect) :
    (rumble_upload_effect s e).2.1 = s
    ∨ ∃ i : Fin RUMBLE_MAX_EFFECTS,
        (rumble_upload_effect s e).2.1
          = set_slot s i { effect := { e with id := ((i : Nat) : Int) }, in_use := true } := by
  rw [rumble_upload_effect]
  by_cases ht : e.type ≠ FF_RUMBLE
  · rw [if_pos ht]
    left
    rfl
  rw [if_neg ht]
  by_cases hneg : e.id < 0
  · rw [dif_pos hneg, allocate_slot]
    rcases allocate_scan_spec s RUMBLE_MAX_EFFECTS 0 (by omega) with ⟨heq, _⟩ | ⟨k, _, _, _, heq⟩
    · rw [heq]
      left
      rfl
    · rw [heq]
      right
      refine ⟨k, ?_⟩
      simp [upload_finish, set_slot, Function.update_same, Function.update_idem]
  · rw [dif_neg hneg]
    by_cases hge : ((RUMBLE_MAX_EFFECTS : Nat) : Int) ≤ e.id
    · rw [dif_pos hge]
      left
      rfl
    · rw [dif_neg hge]
      right
      refine ⟨⟨e.id.toNat, by simp only [RUMBLE_MAX_EFFECTS] at hge ⊢; omega⟩, ?_⟩
      simp only [upload_finish]
      by_cases hu : (s.slots ⟨e.id.toNat, by simp only [RUMBLE_MAX_EFFECTS] at hge ⊢; omega⟩).in_use = true
      · rw [if_pos hu, hu]
      · rw [if_neg hu]
        simp [set_slot, Function.update_same, Function.update_idem]

/-- Erase either leaves the slot array unchanged or clears the in_use flag of
one slot, keeping its stored effect. -/
lemma erase_slots_characterization (s : rumble_state) (g : Bool) (id : Int) :
    (rumble_erase_effect s g id).2.1.slots = s.slots
    ∨ ∃ i : Fin RUMBLE_MAX_EFFECTS,
        (rumble_erase_effect s g id).2.1.slots
          = Function.update s.slots i { s.slots i with in_use := false } := by
  rw [rumble_erase_effect]
  by_cases h : id < 0 ∨ ((RUMBLE_MAX_EFFECTS : Nat) : Int) ≤ id
  · rw [dif_pos h]
    left
    rfl
  · rw [dif_neg h]
    right
    refine ⟨⟨id.toNat, by simp only [RUMBLE_MAX_EFFECTS] at h ⊢; omega⟩, ?_⟩
    simp only [set_slot]
    split <;> rfl

/-- Stopping playback does not touch the slot array. -/
lemma stop_slots (s : rumble_state) (g : Bool) : (rumble_stop s g).1.slots = s.slots := by
  rw [rumble_stop]
  split_ifs <;> rfl

/-- Play does not touch the slot array. -/
lemma play_slots (s : rumble_state) (g : Bool) (id rep : Int) (now : timespec) :
    (rumble_play_effect s g id rep now).1.slots = s.slots := by
  simp only [rumble_play_effect]
  split_ifs <;> first | rfl | exact stop_slots s g

/-- Gain updates do not touch the slot array. -/
lemma gain_slots (s : rumble_state) (g : Bool) (v : Nat) :
    (rumble_apply_gain s g v).1.slots = s.slots := by
  rw [rumble_apply_gain]
  split_ifs <;> first | rfl | exact stop_slots _ g

/-- Tick does not touch the slot array. -/
lemma tick_slots (s : rumble_state) (g : Bool) (now : timespec) :
    (rumble_tick s g now).1.slots = s.slots := by
  rw [rumble_tick]
  split_ifs <;> first | rfl | exact stop_slots s g

/-- Every rumble request preserves the slot-id invariant. -/
lemma slot_id_inv_run_op (sg : rumble_state × Bool) (op : rumble_op)
    (h : slot_id_inv sg.1) : slot_id_inv (run_op sg op).1 := by
  cases op with
  | upload e =>
    simp only [run_op]
    rcases upload_slots_characterization sg.1 e with heq | ⟨i, heq⟩
    · rw [heq]
      exact h
    · intro j hj
      rw [heq] at hj ⊢
      by_cases hji : j = i
      · subst hji
        simp [set_slot, Function.update_same]
      · simp only [set_slot, Function.update_noteq hji] at hj ⊢
        exact h j hj
  | erase id =>
    simp only [run_op]
    rcases erase_slots_characterization sg.1 sg.2 id with heq | ⟨i, heq⟩
    · intro j hj
      rw [heq] at hj ⊢
      exact h j hj
    · intro j hj
      rw [heq] at hj ⊢
      by_cases hji : j = i
      · subst hji
        simp [Function.update_same] at hj
      · simp only [Function.update_noteq hji] at hj ⊢
        exact h j hj
  | play id rep now =>
    intro j hj
    simp only [run_op] at hj ⊢
    rw [play_slots] at hj ⊢
    exact h j hj
  | apply_gain v =>
    intro j hj
    simp only [run_op] at hj ⊢
    rw [gain_slots] at hj ⊢
    exact h j hj
  | tick now =>
    intro j hj
    simp only [run_op] at hj ⊢
    rw [tick_slots] at hj ⊢
    exact h j hj

/-- Folding any request list preserves the slot-id invariant. -/
lemma slot_id_inv_foldl (ops : List rumble_op) :
    ∀ sg : rumble_state × Bool, slot_id_inv sg.1 →
      slot_id_inv (List.foldl run_op sg ops).1 := by
  induction ops with
  | nil =>
    intro sg h
    simpa using h
  | cons op rest ih =>
    intro sg h
    rw [List.foldl_cons]
    exact ih _ (slot_id_inv_run_op sg op h)

/-- C10: in every engine state reachable from `rumble_state_init` by any
sequence of upload/erase/play/apply_gain/tick requests, every slot marked in
use stores an effect whose id equals the slot's own index — in particular
the erase test `slots[id].effect.id == id` holds for every uploaded slot. -/
theorem uploaded_slot_id_matches_index (ops : List rumble_op) :
    slot_id_inv (run_ops ops).1 :=
  slot_id_inv_foldl ops (rumble_state_init, false) slot_id_inv_init

/-- C10 witness: after two uploads the second slot stores id 1, its index. -/
theorem uploaded_slot_id_matches_index_witness :
    ((run_ops [.upload eff_ex, .upload eff_ex]).1.slots ⟨1, by decide⟩).effect.id = 1 :=
  uploaded_slot_id_matches_index [.upload eff_ex, .upload eff_ex] ⟨1, by decide⟩ (by decide)

/-- The mapper's output always lies in the signed 16-bit range. -/
lemma map_adc_bounds (raw mn mx zro dz : Nat) (inv : Bool) :
    AXIS_MIN ≤ map_adc_to_axis raw mn mx zro dz inv
    ∧ map_adc_to_axis raw mn mx zro dz inv ≤ AXIS_MAX := by
  simp only [map_adc_to_axis]
  split <;> split <;>
    first
    | exact clamp_axis_bounds _
    | norm_num [AXIS_MIN, AXIS_MAX]

/-- C4 counterexample: for the symmetric calibration {0, 4096, zero 2048},
invert false, raw samples in range and half-range 2048 at both extremes,
the mapper is not odd: map(zero + 2048) = 32767 (scaled by AXIS_MAX) but
-map(zero - 2048) = 32768 (scaled by -AXIS_MIN). -/
theorem axis_map_not_odd :
    map_adc_to_axis 4096 0 4096 2048 1 false = 32767
    ∧ map_adc_to_axis 0 0 4096 2048 1 false = -32768
    ∧ ¬(map_adc_to_axis 4096 0 4096 2048 1 false
         = -(map_adc_to_axis 0 0 4096 2048 1 false)) := by
  refine ⟨map_eval_pos_extreme, map_eval_neg_extreme, ?_⟩
  rw [map_eval_pos_extreme, map_eval_neg_extreme]
  decide

/-- C4 (amended): for every input the mapper's output lies in
[-32768, 32767]; for a symmetric calibration with nonzero half-range and
invert false the mapper is odd in sign — deflections at or above center map
to nonnegative values and deflections at or below center to nonpositive
ones — but not exactly odd, because positive deflections scale by 32767 and
negative ones by 32768. -/
theorem axis_map_range_and_sign (raw mn mx zro dz : Nat) (inv : Bool) (d : Nat) :
    (AXIS_MIN ≤ map_adc_to_axis raw mn mx zro dz inv
     ∧ map_adc_to_axis raw mn mx zro dz inv ≤ AXIS_MAX)
    ∧ (d ≤ zro → zro + d ≤ mx →
        (mx : Int) - (zro : Int) = (zro : Int) - (mn : Int) → mx ≠ zro →
        0 ≤ map_adc_to_axis (zro + d) mn mx zro dz false
        ∧ map_adc_to_axis (zro - d) mn mx zro dz false ≤ 0) := by
  refine ⟨map_adc_bounds raw mn mx zro dz inv, ?_⟩
  intro hd hdm hsym hne
  constructor
  · exact map_adc_nonneg (zro + d) mn mx zro dz (by omega) (by omega)
  · exact map_adc_nonpos (zro - d) mn mx zro dz (by omega) (by omega)

/-- C4 witness: concrete instances of the range bound and of both sign
conclusions for the symmetric calibration {0, 4096, zero 2048} at offset
100. -/
theorem axis_map_range_and_sign_witness :
    (AXIS_MIN ≤ map_adc_to_axis 3000 0 4096 2048 10 false
     ∧ map_adc_to_axis 3000 0 4096 2048 10 false ≤ AXIS_MAX)
    ∧ (0 ≤ map_adc_to_axis 2148 0 4096 2048 10 false
       ∧ map_adc_to_axis 1948 0 4096 2048 10 false ≤ 0) :=
  ⟨(axis_map_range_and_sign 3000 0 4096 2048 10 false 100).1,
   (axis_map_range_and_sign 3000 0 4096 2048 10 false 100).2
     (by decide) (by decide) (by decide) (by decide)⟩
